import Mathlib

/-!
# Verification of the HIVE-Lab JSON-to-TSV converters and accession reconciler

A shallow embedding, in Lean 4, of the core logic of the
`cwoodside1278/Christie--HIVE-Lab` repository:

* the JSON flattener `flatten_json` (identical copies in `APHIS_ngsQC.py`,
  `json2tsv-assemQC.py`, `gisaid_assemblyQC_store.py`);
* the schema-projection cells: the `header_map` fallback branch of `make_tsv`
  (`json2tsv-assemQC.py` lines 280-283, `APHIS_ngsQC.py` lines 453-457), the
  `listify` of `APHIS_ngsQC.py` (lines 177-181), and the `listify` of
  `JSON2tsv-just_ngs_out.py` (lines 65-96);
* the enrichment helpers' failure behaviour (`bsMeta` of `APHIS_ngsQC.py`,
  `bsDataGet` of `ARGOS Datapush/gisaid_assemblyQC_store.py`, `getLin` of
  `APHIS_ngsQC.py`), with the remote Entrez/xmltodict collaborators abstracted
  as an environment of responses;
* the accession reconciler of `ARGOS Datapush/check_ids_in_tsvs.py`
  (`parse_acc`, `find_gca_for_one_table`, and the per-candidate body of
  `main`'s loop).

Python scalars are modelled by `JValue` (floats as exact rationals: every
float literal the claims touch is a short terminating decimal), Python dicts
by association lists in insertion order with last-write-wins lookup, Python
sets by lists queried only through membership, and raising code by
`Except String`.
-/

namespace Hive

/-- A scalar JSON / Python value: `None`, `bool`, `int`, `float` or `str`.
Floats are modelled as exact rationals; the float literals appearing in the
claims are short terminating decimals, on which this model agrees with IEEE
doubles for the formatting operations used by the code. -/
inductive JValue where
  | null
  | bool (b : Bool)
  | int (n : Int)
  | float (q : ℚ)
  | str (s : String)
  deriving DecidableEq

/-- A nested JSON value: scalar, array, or object (fields in document order,
as Python dict iteration preserves insertion order). -/
inductive JSON where
  | scalar (v : JValue)
  | arr (xs : List JSON)
  | obj (fs : List (String × JSON))

/-- Lookup in a Python dict represented as its write list in order:
the value of the LAST write with the given key (Python dict writes
overwrite, so lookup sees the most recent one). `none` models a missing
key. On a duplicate-free association list this is ordinary lookup. -/
def aget {α : Type} (d : List (String × α)) (k : String) : Option α :=
  (d.reverse.find? (fun kv => kv.1 == k)).map (fun kv => kv.2)

/-- Python's `name[:-1]`: drop the last character (empty string unchanged). -/
def strInit (s : String) : String := String.mk s.data.dropLast

mutual

/-- Embeds the inner `flatten(x, name)` of `flatten_json`
(`APHIS_ngsQC.py` lines 160-174, `json2tsv-assemQC.py` lines 69-86):
a dict recurses into each key `a` with path `name + a + "_"`, a list into
each element with path `name + str(i) + "_"`, and a scalar writes
`out[name[:-1]] = x`.  The result is the list of writes to `out` in
execution order (depth-first, left to right); dict semantics of `out` are
recovered by `aget`. -/
def flattenAux : JSON → String → List (String × JValue)
  | .scalar v, name => [(strInit name, v)]
  | .arr xs, name => flattenArr xs 0 name
  | .obj fs, name => flattenObj fs name

/-- The list branch of `flatten`: elements in index order, zero-based. -/
def flattenArr : List JSON → Nat → String → List (String × JValue)
  | [], _, _ => []
  | x :: xs, i, name => flattenAux x (name ++ toString i ++ "_") ++ flattenArr xs (i + 1) name

/-- The dict branch of `flatten`: keys in iteration (insertion) order. -/
def flattenObj : List (String × JSON) → String → List (String × JValue)
  | [], _ => []
  | (a, x) :: fs, name => flattenAux x (name ++ a ++ "_") ++ flattenObj fs name

end

/-- `flatten_json(y)`: flatten from the empty starting path. -/
def flatten_json (y : JSON) : List (String × JValue) := flattenAux y ""

/-- Python truthiness of a scalar: `None`, `False`, `0`, `0.0` and `""` are
falsy, everything else truthy.  Used to model `x or '-'` and `x if x else '-'`. -/
def pyTruthy : JValue → Bool
  | .null => false
  | .bool b => b
  | .int n => n != 0
  | .float q => q != 0
  | .str s => s != ""

/-- Rounding of the fraction `x / d` (with `d > 0`) to the nearest integer,
ties to even — the rounding CPython's fixed-point float formatting performs
on the value.  Computed on integers so that it reduces inside the kernel. -/
def roundHalfEvenInt (x d : ℤ) : ℤ :=
  let f : ℤ := Int.fdiv x d
  let r : ℤ := x - f * d
  if 2 * r < d then f
  else if 2 * r > d then f + 1
  else if f % 2 = 0 then f else f + 1

/-- Left-pad a digit string with zeros to the given width. -/
def padZeros (s : String) (w : Nat) : String :=
  String.mk (List.replicate (w - s.length) '0') ++ s

/-- Python's `f"{x:.4f}"`: the value rendered with exactly four digits after
the decimal point (nearest, ties to even): `q * 10000` is the fraction
`q.num * 10000 / q.den`, rounded to the integer of the four decimals. -/
def format4 (q : ℚ) : String :=
  let n := roundHalfEvenInt (q.num * 10000) (q.den : ℤ)
  let sign := if n < 0 then "-" else ""
  let m := n.natAbs
  sign ++ toString (m / 10000) ++ "." ++ padZeros (toString (m % 10000)) 4

/-- Python's `str()` on a float whose value is a terminating decimal of at
most 17 digits after the point (the shortest-representation printer and this
definition agree on such values, which covers every float the converters'
inputs carry once floats are read as their decimal literals). -/
def pyFloatStr (q : ℚ) : String :=
  let sign := if q.num < 0 then "-" else ""
  let n := q.num.natAbs
  let d := q.den
  let k := ((List.range 18).find? (fun k => 10 ^ k % d == 0)).getD 17
  let m := n * (10 ^ k / d)
  if k == 0 then sign ++ toString m ++ ".0"
  else sign ++ toString (m / 10 ^ k) ++ "." ++ padZeros (toString (m % 10 ^ k)) k

/-- The text `csv.writer` / `DataFrame.to_csv` puts in a cell holding the
given scalar: `str()` of the value, except `None`, written as the empty
field. -/
def pyStr : JValue → String
  | .null => ""
  | .bool b => if b then "True" else "False"
  | .int n => toString n
  | .float q => pyFloatStr q
  | .str s => s

/-- Embeds the fallback branch of `make_tsv` shared by
`json2tsv-assemQC.py` (lines 280-283) and `APHIS_ngsQC.py` (lines 453-457),
reached when no computed override applies to the column:

    if key in columns_data["header_map"]:
        key = columns_data["header_map"][key]
    row.append(flat_item.get(key, ""))

(`gisaid_assemblyQC_store.py` line 186 and `Thesis/APHIS_assemQC.py` line 418
are the same logic written as `flat_item.get(header_map.get(key, key), "")`.) -/
def fallbackCell (header_map : List (String × String))
    (flat_item : List (String × JValue)) (key : String) : JValue :=
  let key' := match aget header_map key with
    | some k => k
    | none => key
  (aget flat_item key').getD (.str "")

namespace APHIS

/-- The `header_map` of the `columns_data` literal in `APHIS_ngsQC.py`
(lines 96-115). -/
def header_map : List (String × String) :=
  [("ngs_read_file_name", "assembled_genome_acc"),
   ("bco_id", "id"),
   ("percent_not_coding", "percent_non_coding"),
   ("count_all_wn", "count_all_WN"),
   ("non_complex_percent", "non_complexity_percent"),
   ("avg_quality_a", "bases_avg_quality_a"),
   ("avg_quality_t", "bases_avg_quality_t"),
   ("avg_quality_g", "bases_avg_quality_g"),
   ("avg_quality_c", "bases_avg_quality_c"),
   ("count_a", "bases_count_a"),
   ("count_c", "bases_count_c"),
   ("count_g", "bases_count_g"),
   ("count_t", "bases_count_t"),
   ("count_n", "bases_count_n"),
   ("percent_a", "bases_percent_a"),
   ("percent_c", "bases_percent_c"),
   ("percent_g", "bases_percent_g"),
   ("percent_t", "bases_percent_t")]

/-- One cell of `listify` in `APHIS_ngsQC.py` (lines 177-181):
`d.get(key) or '-'` — `d.get(key)` is `None` when the key is absent, and
`x or '-'` yields `'-'` whenever `x` is falsy. -/
def cellOf (d : List (String × JValue)) (key : String) : JValue :=
  let v := (aget d key).getD .null
  if pyTruthy v then v else .str "-"

/-- Embeds `listify` of `APHIS_ngsQC.py` (lines 177-181):

    l = []
    for key in key_order:
        l += [d.get(key) or '-']
    return l -/
def listify (d : List (String × JValue)) : List String → List JValue
  | [] => []
  | key :: rest => cellOf d key :: listify d rest

end APHIS

namespace JustNGS

/-- The list of keys given the nested-`bases` fallback in
`JSON2tsv-just_ngs_out.py` (lines 80-82). -/
def basesKeys : List String :=
  ["count_a", "count_c", "count_g", "count_t", "count_n",
   "avg_quality_a", "avg_quality_c", "avg_quality_g", "avg_quality_t",
   "percent_a", "percent_c", "percent_g", "percent_t", "percent_n"]

/-- Python's `value == ''` on a JSON value (a dict or list never equals `''`). -/
def isEmptyStr : JSON → Bool
  | .scalar (.str s) => s == ""
  | _ => false

/-- The `isinstance(value, float)` formatting step of `listify`
(`JSON2tsv-just_ngs_out.py` lines 91-93): floats become their `"{:.4f}"`
string; every other value is left unchanged. -/
def formatValue : JSON → JSON
  | .scalar (.float q) => .scalar (.str (format4 q))
  | v => v

/-- One cell of `listify` in `JSON2tsv-just_ngs_out.py` (lines 65-96):
translate the key through `header_map`, look it up at top level with `''`
default; if that gave `''` and the key is one of the `bases` keys, look
inside `d.get('bases', {})` instead — raising `AttributeError` as Python
does when that value is not a dict; finally apply the float formatting. -/
def cell (d : List (String × JSON)) (header_map : List (String × String))
    (key : String) : Except String JSON :=
  let mapped_key := (aget header_map key).getD key
  let value := (aget d mapped_key).getD (.scalar (.str ""))
  if isEmptyStr value && basesKeys.contains mapped_key then
    match (aget d "bases").getD (.obj []) with
    | .obj fs => .ok (formatValue ((aget fs mapped_key).getD (.scalar (.str ""))))
    | _ => .error "AttributeError"
  else .ok (formatValue value)

/-- Embeds `listify` of `JSON2tsv-just_ngs_out.py` (lines 65-96): one cell
per key of `key_order`, in order; a raised exception aborts the whole row. -/
def listify (d : List (String × JSON)) (key_order : List String)
    (header_map : List (String × String)) : Except String (List JSON) :=
  match key_order with
  | [] => .ok []
  | key :: rest =>
    match cell d header_map key with
    | .error e => .error e
    | .ok v =>
      match listify d rest header_map with
      | .error e => .error e
      | .ok vs => .ok (v :: vs)

end JustNGS

/-! ## Enrichment helpers

The remote Entrez client and the `xmltodict` parser are external
collaborators (spec §1, §6); the structures below carry the responses a run
of one helper consumes, and the helpers are functions of that environment.
Raising Python code becomes `Except String`. -/

/-- The parsed `BioSample` record (`xmltodict.parse(sd)['BioSample']`) a
document summary carries; only its shape matters here. -/
structure BioSample where
  attributes : List (String × String)
  organismName : String
  taxonomyId : String
  deriving DecidableEq

/-- The remote responses consumed by the opening lines of `bsMeta`
(`APHIS_ngsQC.py` lines 208-223) and of `bsDataGet`
(`gisaid_assemblyQC_store.py` lines 109-124): the `esearch` `IdList` and the
`esummary` `DocumentSummary` list for the chosen id. -/
structure EntrezBiosampleEnv where
  idList : List String
  docSummaries : List BioSample
  deriving DecidableEq

/-- The remote responses consumed by one of the guarded nucleotide helpers
(`getLin`, `getAssembly`, `getOrg`, ... ): the `esearch` `IdList` and, for
the first id, the field of the fetched GenBank record the helper reads
(`GBSeq_taxonomy` for `getLin`). -/
structure EntrezNucEnv where
  idList : List String
  gbseqTaxonomy : String
  deriving DecidableEq

namespace APHIS

/-- Embeds the head of `bsMeta` (`APHIS_ngsQC.py` lines 208-223):

    record = Entrez.read(search)
    bs_id = record['IdList'][0]
    ...
    r = record['DocumentSummarySet']['DocumentSummary'][0]
    sd = r['SampleData']
    sd_json = xmltodict.parse(sd)['BioSample']

Both `[0]` indexings raise `IndexError` on an empty list; nothing guards
them.  The remainder of `bsMeta` (attribute assembly and the per-SRA loop)
consumes the returned pair and is not needed by the claims. -/
def bsMetaHead (env : EntrezBiosampleEnv) : Except String (String × BioSample) :=
  match env.idList with
  | [] => .error "IndexError: list index out of range"
  | bs_id :: _ =>
    match env.docSummaries with
    | [] => .error "IndexError: list index out of range"
    | r :: _ => .ok (bs_id, r)

/-- Embeds `getLin` (`APHIS_ngsQC.py` lines 321-337): when the `esearch`
`IdList` is empty the `if record["IdList"]:` guard fails and the function
falls through, returning Python `None`; otherwise it returns the fetched
record's `GBSeq_taxonomy`. -/
def getLin (env : EntrezNucEnv) : Option String :=
  match env.idList with
  | [] => none
  | _ :: _ => some env.gbseqTaxonomy

/-- The `lineage` cell of `make_tsv` (`APHIS_ngsQC.py` lines 442-444):
`l_id = getLin(...); row.append(l_id if l_id else "-")` — falsy (`None` or
`''`) degrades to the dash placeholder. -/
def lineageCell (env : EntrezNucEnv) : String :=
  match getLin env with
  | some l => if l == "" then "-" else l
  | none => "-"

end APHIS

namespace Gisaid

/-- Embeds the head of `bsDataGet` (`gisaid_assemblyQC_store.py` lines
109-124), textually the same unguarded pattern as `APHIS.bsMetaHead`:
`bs_id = record['IdList'][0]` and
`r = record['DocumentSummarySet']['DocumentSummary'][0]`. -/
def bsDataGetHead (env : EntrezBiosampleEnv) : Except String (String × BioSample) :=
  match env.idList with
  | [] => .error "IndexError: list index out of range"
  | bs_id :: _ =>
    match env.docSummaries with
    | [] => .error "IndexError: list index out of range"
    | r :: _ => .ok (bs_id, r)

end Gisaid

/-! ## The accession reconciler (`ARGOS Datapush/check_ids_in_tsvs.py`) -/

namespace CheckIds

/-- `int()` of a nonempty ASCII digit string. -/
def natOfDigits (cs : List Char) : Nat :=
  cs.foldl (fun n c => 10 * n + (c.toNat - '0'.toNat)) 0

/-- Embeds `parse_acc` (lines 46-54) with its regex
`^(?P<prefix>GC[AF])_(?P<digits>\d+)(?:\.(?P<ver>\d+))?$`: the result is
`(prefix, digits, version)` with version defaulting to 1 when the suffix is
omitted.  Digits are ASCII (the ids handled are plain ASCII accessions,
stripped of whitespace upstream). -/
def parse_acc (acc : String) : Option (String × String × Nat) :=
  match acc.data with
  | 'G' :: 'C' :: p :: '_' :: rest =>
    if p == 'A' || p == 'F' then
      let digits := rest.takeWhile Char.isDigit
      let rest2 := rest.dropWhile Char.isDigit
      if digits.isEmpty then none
      else
        match rest2 with
        | [] => some (String.mk ['G', 'C', p], String.mk digits, 1)
        | '.' :: vs =>
          if vs.isEmpty || !(vs.all Char.isDigit) then none
          else some (String.mk ['G', 'C', p], String.mk digits, natOfDigits vs)
        | _ => none
    else none
  | _ => none

/-- Embeds `find_gca_for_one_table` (lines 56-75): for a `GCF` id and ONE
table's id set, try `GCA_<digits>.<ver + i>` for `i = 0, 1, ..,
max_increments` in ascending order, returning the first hit with `True`;
with no hit, return the `i = 0` candidate with `False` ("initial candidate
for reference only").  Non-`GCF` or unparsable input returns `("", False)`.
The Python `set` is modelled as a list consulted only through membership. -/
def find_gca_for_one_table (gcf_id : String) (target_set : List String)
    (max_increments : Nat) : String × Bool :=
  match parse_acc gcf_id with
  | none => ("", false)
  | some (pfx, digits, ver) =>
    if pfx != "GCF" then ("", false)
    else
      let base := "GCA_" ++ digits
      match (List.range (max_increments + 1)).find?
          (fun i => target_set.contains (base ++ "." ++ toString (ver + i))) with
      | some i => (base ++ "." ++ toString (ver + i), true)
      | none => (base ++ "." ++ toString ver, false)

/-- One row of the discrepancy report (`report_rows.append({...})`,
columns `missing_id, organism, gca_candidate, gca_present`). -/
structure ReportRow where
  missing_id : String
  organism : String
  gca_candidate : String
  gca_present : String
  deriving DecidableEq

/-- What one iteration of `main`'s loop produces for a candidate id: the
appended report row, if any, and the insertions into `gca_to_gcf_for_tsv1`
and `gca_to_gcf_for_tsv2`, if any. -/
structure IdOutcome where
  report : Option ReportRow
  fix1 : Option (String × String)
  fix2 : Option (String × String)
  deriving DecidableEq

/-- Python's `parsed and parsed[0] == "GCA"` (line 143). -/
def isGCA : Option (String × String × Nat) → Bool
  | some (pfx, _, _) => pfx == "GCA"
  | none => false

/-- The per-table step of `main` (lines 156-170): `cand`/`fixed` start as
`("", False)` and `find_gca_for_one_table` runs only when the id is not
present as-is in that table. -/
def tableFix (idv : String) (tset : List String) (m : Nat) : String × Bool :=
  if tset.contains idv then ("", false) else find_gca_for_one_table idv tset m

/-- Embeds the body of `main`'s loop for one nonempty candidate id
(`check_ids_in_tsvs.py` lines 139-186): a parsed `GCA` id is reported
unresolved immediately; otherwise each table is probed with `tableFix`, a
successful fix with a nonempty candidate is recorded in that table's
`gca_to_gcf` map, and a report row is appended exactly when some table is
still missing and unfixed, with `gca_present = "yes"` iff at least one
table was fixed and `gca_candidate = cand1 or cand2`. -/
def processId (idv org : String) (set1 set2 : List String) (maxinc : Nat) :
    IdOutcome :=
  if isGCA (parse_acc idv) then
    ⟨some ⟨idv, org, "", "no"⟩, none, none⟩
  else
    let present1 := set1.contains idv
    let present2 := set2.contains idv
    let c1 := tableFix idv set1 maxinc
    let c2 := tableFix idv set2 maxinc
    let fix1 := if c1.2 && c1.1 != "" then some (c1.1, idv) else none
    let fix2 := if c2.2 && c2.1 != "" then some (c2.1, idv) else none
    let unresolved := (!present1 && !c1.2) || (!present2 && !c2.2)
    let report := if unresolved then
        some ⟨idv, org, if c1.1 != "" then c1.1 else c2.1,
          if c1.2 || c2.2 then "yes" else "no"⟩
      else none
    ⟨report, fix1, fix2⟩

/-- The report rows `main` accumulates over the input id/organism pairs, in
order; empty ids are skipped (`if idv == "": continue`, line 140). -/
def reportRows (entries : List (String × String)) (set1 set2 : List String)
    (maxinc : Nat) : List ReportRow :=
  match entries with
  | [] => []
  | (idv, org) :: rest =>
    (if idv == "" then []
     else ((processId idv org set1 set2 maxinc).report).toList) ++
    reportRows rest set1 set2 maxinc

end CheckIds

/-! ## Helper lemmas -/

theorem strInit_append (s : String) : strInit (s ++ "_") = s := by
  cases s with
  | mk data =>
    apply String.ext
    show ((⟨data⟩ : String) ++ "_").data.dropLast = data
    rw [String.data_append]
    rw [show ("_" : String).data = ['_'] from rfl]
    rw [List.dropLast_concat]

/-- `List.find?` over `List.range n` returns the least index satisfying the
predicate: it holds there, is below `n`, and fails at every smaller index. -/
theorem range_find?_some {p : Nat → Bool} {n i : Nat}
    (h : (List.range n).find? p = some i) :
    p i = true ∧ i < n ∧ ∀ j, j < i → p j = false := by
  induction n with
  | zero => simp [List.range_zero] at h
  | succ n ih =>
    rw [List.range_succ, List.find?_append] at h
    cases hfind : (List.range n).find? p with
    | some i' =>
      rw [hfind] at h
      simp only [Option.or] at h
      cases h
      exact ⟨(ih hfind).1, Nat.lt_succ_of_lt (ih hfind).2.1, (ih hfind).2.2⟩
    | none =>
      rw [hfind] at h
      simp only [Option.or] at h
      have hall := List.find?_eq_none.mp hfind
      by_cases hp : p n
      · rw [List.find?_cons_of_pos _ hp] at h
        cases h
        refine ⟨hp, Nat.lt_succ_self _, fun j hj => ?_⟩
        have := hall j (List.mem_range.mpr hj)
        simpa using this
      · rw [List.find?_cons_of_neg _ hp] at h
        simp at h

theorem aget_nil {α : Type} (k : String) : aget ([] : List (String × α)) k = none := rfl

/-- Projecting any column from the empty record in the just-ngs converter
yields the `''` placeholder, whatever the rename table says. -/
theorem justngs_cell_nil (hm : List (String × String)) (key : String) :
    JustNGS.cell [] hm key = .ok (.scalar (.str "")) := by
  simp only [JustNGS.cell, aget_nil]
  split <;> rfl

/-- `List.find?` over `List.range n` returns `none` exactly when the
predicate fails at every index below `n`. -/
theorem range_find?_none {p : Nat → Bool} {n : Nat}
    (h : (List.range n).find? p = none) :
    ∀ j, j < n → p j = false := by
  intro j hj
  have := List.find?_eq_none.mp h j (List.mem_range.mpr hj)
  simpa using this

end Hive

namespace Hive

/-! ## The claims -/

/-- C6: Flattener path determinism — an object child key `k` under path `P`
yields path `P + "_" + k`, an array element at index `i` yields
`P + "_" + i` (zero-based, starting index 0 at the array node); in
particular flattening `{"a": {"b": 1, "c": [2, 3]}}` produces exactly the
mapping `{"a_b": 1, "a_c_0": 2, "a_c_1": 3}`, and empty objects/arrays
contribute no entries. -/
theorem c6_flatten_paths :
    (∀ P k v, flattenAux (.scalar v) (P ++ "_" ++ k ++ "_") = [(P ++ "_" ++ k, v)]) ∧
    (∀ name k v fs, flattenAux (.obj ((k, v) :: fs)) name =
      flattenAux v (name ++ k ++ "_") ++ flattenAux (.obj fs) name) ∧
    (∀ name xs, flattenAux (.arr xs) name = flattenArr xs 0 name) ∧
    (∀ name i x xs, flattenArr (x :: xs) i name =
      flattenAux x (name ++ toString i ++ "_") ++ flattenArr xs (i + 1) name) ∧
    flatten_json (.obj [("a", .obj [("b", .scalar (.int 1)),
      ("c", .arr [.scalar (.int 2), .scalar (.int 3)])])]) =
      [("a_b", .int 1), ("a_c_0", .int 2), ("a_c_1", .int 3)] ∧
    flatten_json (.obj []) = [] ∧
    flatten_json (.arr []) = [] := by
  refine ⟨fun P k v => ?_, fun name k v fs => ?_, fun name xs => ?_,
    fun name i x xs => ?_, ?_, ?_, ?_⟩
  · rw [show flattenAux (.scalar v) (P ++ "_" ++ k ++ "_") =
      [(strInit (P ++ "_" ++ k ++ "_"), v)] from by simp [flattenAux]]
    rw [strInit_append]
  · simp [flattenAux, flattenObj]
  · simp [flattenAux]
  · simp [flattenArr]
  · simp [flatten_json, flattenAux, flattenObj, flattenArr]
    decide
  · simp [flatten_json, flattenAux, flattenObj]
  · simp [flatten_json, flattenAux, flattenArr]

/-- C1 counterexample: the flat record binds `"bco_id"` verbatim to `"X"`,
and `"bco_id"` is also a key of the APHIS `header_map` (mapped to `"id"`);
the projected cell is the `""` default, not `"X"` — the rename is applied
before, not after, the direct key match. -/
theorem c1_counterexample :
    aget [("bco_id", JValue.str "X")] "bco_id" = some (JValue.str "X") ∧
    fallbackCell APHIS.header_map [("bco_id", JValue.str "X")] "bco_id" = JValue.str "" ∧
    JValue.str "" ≠ JValue.str "X" :=
  ⟨by decide, by decide, by decide⟩

/-- C1 (amended): the rename table takes precedence over the direct key
match — when column `c` is a key of `header_map` the projected cell is
`flatRecord[header_map[c]]` (default `""` when absent), regardless of
whether `c` itself is a key of the flat record; the direct key match applies
only when `c` is not in `header_map`. -/
theorem c1_headermap_precedence (hm : List (String × String))
    (flat : List (String × JValue)) (key : String) :
    (∀ k, aget hm key = some k →
      fallbackCell hm flat key = (aget flat k).getD (.str "")) ∧
    (aget hm key = none →
      fallbackCell hm flat key = (aget flat key).getD (.str "")) := by
  constructor
  · intro k hk
    simp [fallbackCell, hk]
  · intro hk
    simp [fallbackCell, hk]

/-- C1 witness: with `header_map` mapping `"bco_id"` to `"id"` and a flat
record carrying both keys, the cell comes from `"id"`. -/
theorem c1_headermap_precedence_witness :
    fallbackCell APHIS.header_map
      [("bco_id", JValue.str "X"), ("id", JValue.str "Y")] "bco_id" =
      JValue.str "Y" := by
  have h := (c1_headermap_precedence APHIS.header_map
    [("bco_id", JValue.str "X"), ("id", JValue.str "Y")] "bco_id").1 "id" (by decide)
  rw [h]
  decide

/-- C3 counterexample: the APHIS `listify` projects a record binding `"c"`
to the scalar `0` to the dash placeholder, not to `0` — `d.get(key) or '-'`
replaces every falsy present value by the placeholder. -/
theorem c3_counterexample :
    aget [("c", JValue.int 0)] "c" = some (JValue.int 0) ∧
    APHIS.listify [("c", JValue.int 0)] ["c"] = [JValue.str "-"] ∧
    JValue.str "-" ≠ JValue.int 0 :=
  ⟨by decide, by decide, by decide⟩

/-- C3 (amended): in the APHIS `listify` a cell is the bound value exactly
when that value is Python-truthy, and the dash placeholder both when the
column is absent and when the bound value is falsy (`0`, `false`, `""`,
`null`); in the just-ngs `listify` a bound falsy scalar such as the int `0`
is emitted as-is (the placeholder there requires the lookup to miss or hit
`""`). -/
theorem c3_placeholder_on_falsy (d : List (String × JValue)) (key : String)
    (v : JValue) (d' : List (String × JSON)) (hm : List (String × String)) (n : ℤ) :
    (aget d key = some v → pyTruthy v = true → APHIS.cellOf d key = v) ∧
    (aget d key = some v → pyTruthy v = false → APHIS.cellOf d key = .str "-") ∧
    (aget d key = none → APHIS.cellOf d key = .str "-") ∧
    (aget hm key = none → aget d' key = some (.scalar (.int n)) →
      JustNGS.cell d' hm key = .ok (.scalar (.int n))) := by
  refine ⟨fun h ht => ?_, fun h hf => ?_, fun h => ?_, fun h1 h2 => ?_⟩
  · simp [APHIS.cellOf, h, ht]
  · simp [APHIS.cellOf, h, hf]
  · simp [APHIS.cellOf, h, pyTruthy]
  · simp [JustNGS.cell, h1, h2, JustNGS.isEmptyStr, JustNGS.formatValue]

/-- C3 witness: a truthy value passes through, falsy `0` becomes `'-'` in
the APHIS converter but survives in the just-ngs converter. -/
theorem c3_placeholder_on_falsy_witness :
    APHIS.cellOf [("c", JValue.int 7)] "c" = JValue.int 7 ∧
    APHIS.cellOf [("c", JValue.int 0)] "c" = JValue.str "-" ∧
    JustNGS.cell [("c", JSON.scalar (JValue.int 0))] [] "c" =
      .ok (.scalar (.int 0)) :=
  ⟨(c3_placeholder_on_falsy [("c", JValue.int 7)] "c" (JValue.int 7) [] [] 0).1
      (by decide) (by decide),
   (c3_placeholder_on_falsy [("c", JValue.int 0)] "c" (JValue.int 0) [] [] 0).2.1
      (by decide) (by decide),
   (c3_placeholder_on_falsy [] "c" JValue.null
      [("c", JSON.scalar (JValue.int 0))] [] 0).2.2.2 (by decide) rfl⟩

/-- C4 counterexample: the `make_tsv` fallback of `json2tsv-assemQC.py` /
`APHIS_ngsQC.py` resolves the float `3.14159` into a column unchanged — no
4-decimal formatting — so the emitted text is its natural `str()` form
`"3.14159"`, not `"3.1416"` (which is what `"{:.4f}"` would give). -/
theorem c4_counterexample :
    fallbackCell APHIS.header_map
      [("avg_phred_score", JValue.float (mkRat 314159 100000))] "avg_phred_score" =
      JValue.float (mkRat 314159 100000) ∧
    pyStr (JValue.float (mkRat 314159 100000)) = "3.14159" ∧
    format4 (mkRat 314159 100000) = "3.1416" ∧
    "3.14159" ≠ "3.1416" :=
  ⟨by decide, by decide, by decide, by decide⟩

/-- C4 (amended): only the `just`-output converters format floats — the
just-ngs `listify` emits a resolved float as its `"{:.4f}"` string, while
the `make_tsv` fallback of `json2tsv-assemQC.py` / `APHIS_ngsQC.py` passes
the float through unformatted, emitting its natural string form. -/
theorem c4_float_formatting (q : ℚ) (d : List (String × JSON))
    (hm hm2 : List (String × String)) (key key2 : String)
    (flat : List (String × JValue)) :
    (aget d ((aget hm key).getD key) = some (.scalar (.float q)) →
      JustNGS.cell d hm key = .ok (.scalar (.str (format4 q)))) ∧
    (aget flat ((aget hm2 key2).getD key2) = some (.float q) →
      fallbackCell hm2 flat key2 = .float q) := by
  constructor
  · intro h
    simp [JustNGS.cell, h, JustNGS.isEmptyStr, JustNGS.formatValue]
  · intro h
    cases hk : aget hm2 key2 with
    | some k =>
      rw [hk] at h
      simp only [Option.getD_some] at h
      simp [fallbackCell, hk, h]
    | none =>
      rw [hk] at h
      simp only [Option.getD_none] at h
      simp [fallbackCell, hk, h]

/-- C4 witness: the just-ngs converter turns the float `3.14159` into the
cell string `"3.1416"`. -/
theorem c4_float_formatting_witness :
    JustNGS.cell [("c", JSON.scalar (JValue.float (mkRat 314159 100000)))] [] "c" =
      .ok (.scalar (.str "3.1416")) := by
  have h := (c4_float_formatting (mkRat 314159 100000)
    [("c", JSON.scalar (JValue.float (mkRat 314159 100000)))] [] [] "c" "c" []).1 rfl
  rw [h, show format4 (mkRat 314159 100000) = "3.1416" from by decide]

/-- C5 counterexample: the just-ngs `listify` does not always return one
value per column — on the flat record `{"bases": 5}` with the single column
`"count_a"`, the `bases` fallback calls `.get` on the int `5` and raises
`AttributeError`, so no row is produced at all. -/
theorem c5_counterexample :
    JustNGS.listify [("bases", JSON.scalar (JValue.int 5))] ["count_a"] [] =
      .error "AttributeError" ∧
    ∀ l : List JSON,
      (Except.error "AttributeError" : Except String (List JSON)) ≠ .ok l :=
  ⟨rfl, fun l h => by cases h⟩

/-- C5 (amended): the APHIS `listify` always returns exactly N values in
schema order, all `'-'` on the empty record; the just-ngs `listify` returns
exactly N values whenever it returns a row at all, and on the empty record
returns all-`''` placeholders — but it can instead raise (see the
counterexample) when a probed `bases` fallback meets a non-object `bases`
value. -/
theorem c5_row_completeness (d : List (String × JValue))
    (d' : List (String × JSON)) (keys : List String) (hm : List (String × String)) :
    (APHIS.listify d keys).length = keys.length ∧
    APHIS.listify [] keys = keys.map (fun _ => JValue.str "-") ∧
    (∀ l, JustNGS.listify d' keys hm = .ok l → l.length = keys.length) ∧
    JustNGS.listify [] keys hm = .ok (keys.map (fun _ => JSON.scalar (JValue.str ""))) := by
  refine ⟨?_, ?_, ?_, ?_⟩
  · induction keys with
    | nil => rfl
    | cons k ks ih => simp [APHIS.listify, ih]
  · induction keys with
    | nil => rfl
    | cons k ks ih => simp [APHIS.listify, ih, APHIS.cellOf, aget_nil, pyTruthy]
  · intro l h
    induction keys generalizing l with
    | nil =>
      simp [JustNGS.listify] at h
      simp [← h]
    | cons k ks ih =>
      rw [JustNGS.listify] at h
      cases hc : JustNGS.cell d' hm k with
      | error e => rw [hc] at h; simp at h
      | ok v =>
        rw [hc] at h
        cases hrest : JustNGS.listify d' ks hm with
        | error e => rw [hrest] at h; simp at h
        | ok vs =>
          rw [hrest] at h
          simp only [Except.ok.injEq] at h
          subst h
          simp [ih vs hrest]
  · induction keys with
    | nil => rfl
    | cons k ks ih => rw [JustNGS.listify, justngs_cell_nil, ih]; rfl

/-- C5 witness: concrete instances of the completeness facts. -/
theorem c5_row_completeness_witness :
    APHIS.listify [] ["a", "b"] = [JValue.str "-", JValue.str "-"] ∧
    [JSON.scalar (JValue.str "x")].length = ["a"].length := by
  constructor
  · have h := (c5_row_completeness [] [] ["a", "b"] []).2.1
    simpa using h
  · exact (c5_row_completeness [] [("a", JSON.scalar (JValue.str "x"))] ["a"] []).2.2.1
      [JSON.scalar (JValue.str "x")] rfl

/-- C2 counterexample: with an empty `esearch` result, `bsMeta`
(`APHIS_ngsQC.py`) and `bsDataGet` (`gisaid_assemblyQC_store.py`) index
`record['IdList'][0]` and raise `IndexError` — the row is aborted, not
degraded to a placeholder. -/
theorem c2_counterexample :
    APHIS.bsMetaHead ⟨[], []⟩ = .error "IndexError: list index out of range" ∧
    Gisaid.bsDataGetHead ⟨[], []⟩ = .error "IndexError: list index out of range" :=
  ⟨rfl, rfl⟩

/-- C2 (amended): an enrichment search miss degrades gracefully only in the
guarded helpers — `getLin` returns `None` on an empty `IdList` and its cell
becomes `'-'` — while the biosample-summary fetchers (`bsMeta`,
`bsDataGet`) raise `IndexError` on an empty search result, aborting the
record. -/
theorem c2_lookup_miss (env : EntrezNucEnv) (benv genv : EntrezBiosampleEnv)
    (h1 : env.idList = []) (h2 : benv.idList = []) (h3 : genv.idList = []) :
    APHIS.getLin env = none ∧ APHIS.lineageCell env = "-" ∧
    APHIS.bsMetaHead benv = .error "IndexError: list index out of range" ∧
    Gisaid.bsDataGetHead genv = .error "IndexError: list index out of range" := by
  refine ⟨?_, ?_, ?_, ?_⟩
  · simp [APHIS.getLin, h1]
  · simp [APHIS.lineageCell, APHIS.getLin, h1]
  · simp [APHIS.bsMetaHead, h2]
  · simp [Gisaid.bsDataGetHead, h3]

/-- C2 witness: with empty search results the lineage cell is `'-'` and
`bsMeta` raises. -/
theorem c2_lookup_miss_witness :
    APHIS.lineageCell ⟨[], "Viruses; Riboviria"⟩ = "-" ∧
    APHIS.bsMetaHead ⟨[], []⟩ = .error "IndexError: list index out of range" :=
  ⟨(c2_lookup_miss ⟨[], "Viruses; Riboviria"⟩ ⟨[], []⟩ ⟨[], []⟩ rfl rfl rfl).2.1,
   (c2_lookup_miss ⟨[], "Viruses; Riboviria"⟩ ⟨[], []⟩ ⟨[], []⟩ rfl rfl rfl).2.2.1⟩

/-- C7: Reconciler version search — for a `GCF`-parseable candidate absent
from a target set, the search probes `GCA_<digits>.<ver + i>` with `i`
ascending from `0` to the maximum increment inclusive: a found result is
the lowest matching `i` (all smaller increments fail and the result is in
the set), and a not-found result is the `i = 0` candidate string with every
increment in the bound failing. -/
theorem c7_version_search (cand digits : String) (ver : Nat)
    (tset : List String) (m : Nat)
    (hparse : CheckIds.parse_acc cand = some ("GCF", digits, ver))
    (habs : tset.contains cand = false) :
    (∀ c, CheckIds.tableFix cand tset m = (c, true) →
      ∃ i, i ≤ m ∧ c = "GCA_" ++ digits ++ "." ++ toString (ver + i) ∧
        tset.contains c = true ∧
        ∀ j, j < i →
          tset.contains ("GCA_" ++ digits ++ "." ++ toString (ver + j)) = false) ∧
    (∀ c, CheckIds.tableFix cand tset m = (c, false) →
      c = "GCA_" ++ digits ++ "." ++ toString ver ∧
      ∀ i, i ≤ m →
        tset.contains ("GCA_" ++ digits ++ "." ++ toString (ver + i)) = false) := by
  have htf : CheckIds.tableFix cand tset m =
      CheckIds.find_gca_for_one_table cand tset m := by
    unfold CheckIds.tableFix
    rw [habs]
    rfl
  set p : Nat → Bool :=
    fun i => tset.contains ("GCA_" ++ digits ++ "." ++ toString (ver + i)) with hp
  have hfg : CheckIds.find_gca_for_one_table cand tset m =
      match (List.range (m + 1)).find? p with
      | some i => ("GCA_" ++ digits ++ "." ++ toString (ver + i), true)
      | none => ("GCA_" ++ digits ++ "." ++ toString ver, false) := by
    unfold CheckIds.find_gca_for_one_table
    rw [hparse]
    rfl
  rw [htf, hfg]
  cases hfind : (List.range (m + 1)).find? p with
  | some i =>
    obtain ⟨hpi, hilt, hmin⟩ := range_find?_some hfind
    constructor
    · intro c hc
      injection hc with hc1 hc2
      subst hc1
      exact ⟨i, Nat.lt_succ_iff.mp hilt, rfl, hpi, fun j hj => hmin j hj⟩
    · intro c hc
      simp at hc
  | none =>
    have hall := range_find?_none hfind
    constructor
    · intro c hc
      simp at hc
    · intro c hc
      injection hc with hc1 hc2
      subst hc1
      exact ⟨rfl, fun i hi => hall i (Nat.lt_succ_of_le hi)⟩

/-- C7 witness: target set `{"GCA_123.3"}`, max increment `5`, candidate
`"GCF_123.1"` — the search finds `"GCA_123.3"` at increment `i = 2` and
marks it found. -/
theorem c7_version_search_witness :
    CheckIds.tableFix "GCF_123.1" ["GCA_123.3"] 5 = ("GCA_123.3", true) ∧
    ∃ i, i ≤ 5 ∧ "GCA_123.3" = "GCA_" ++ "123" ++ "." ++ toString (1 + i) ∧
      (["GCA_123.3"].contains "GCA_123.3") = true ∧
      ∀ j, j < i →
        (["GCA_123.3"].contains ("GCA_" ++ "123" ++ "." ++ toString (1 + j))) = false :=
  ⟨by decide,
   (c7_version_search "GCF_123.1" "123" 1 ["GCA_123.3"] 5 (by decide) (by decide)).1
     "GCA_123.3" (by decide)⟩

/-- C8: Reconciler GCA exclusion — for a candidate parsing with the `GCA`
prefix, `find_gca_for_one_table` never probes any set (it returns
`("", False)` for every set) and the main loop reports the candidate
unresolved (`gca_candidate` empty, `gca_present` `"no"`) with no fix-map
insertions, regardless of the contents of both target sets. -/
theorem c8_gca_exclusion (idv org digits : String) (ver : Nat)
    (tset set1 set2 : List String) (m : Nat)
    (hparse : CheckIds.parse_acc idv = some ("GCA", digits, ver)) :
    CheckIds.find_gca_for_one_table idv tset m = ("", false) ∧
    CheckIds.processId idv org set1 set2 m =
      ⟨some ⟨idv, org, "", "no"⟩, none, none⟩ := by
  constructor
  · unfold CheckIds.find_gca_for_one_table
    rw [hparse]
    rfl
  · unfold CheckIds.processId
    rw [hparse]
    rfl

/-- C8 witness: `"GCA_999.1"` is reported unresolved even when both target
sets contain related (or the very same) identifiers. -/
theorem c8_gca_exclusion_witness :
    CheckIds.find_gca_for_one_table "GCA_999.1" ["GCA_999.1", "GCA_999.2"] 10 =
      ("", false) ∧
    CheckIds.processId "GCA_999.1" "org1" ["GCA_999.1"] ["GCA_999.2"] 10 =
      ⟨some ⟨"GCA_999.1", "org1", "", "no"⟩, none, none⟩ :=
  c8_gca_exclusion "GCA_999.1" "org1" "999" 1 ["GCA_999.1", "GCA_999.2"]
    ["GCA_999.1"] ["GCA_999.2"] 10 (by decide)

/-- C9 counterexample: the unparsable candidate `"FOO"`, present verbatim
in both target tables, is treated as present-as-is and never reported —
contradicting "appears in the report output regardless of the contents of
the two target identifier sets". -/
theorem c9_counterexample :
    CheckIds.parse_acc "FOO" = none ∧
    CheckIds.processId "FOO" "org" ["FOO"] ["FOO"] 10 = ⟨none, none, none⟩ ∧
    CheckIds.reportRows [("FOO", "org")] ["FOO"] ["FOO"] 10 = [] :=
  ⟨by decide, by decide, by decide⟩

/-- C9 (amended): an unparsable candidate never triggers an alternate
search (`find_gca_for_one_table` returns `("", False)` against every set)
and never enters a fix map; it is reported unresolved (`gca_candidate`
empty, `gca_present` `"no"`) exactly when its verbatim string is absent
from at least one of the two target sets — when present in both it is
treated as present-as-is and not reported. -/
theorem c9_unparsable (idv org : String) (tset set1 set2 : List String) (m : Nat)
    (hparse : CheckIds.parse_acc idv = none) :
    CheckIds.find_gca_for_one_table idv tset m = ("", false) ∧
    (CheckIds.processId idv org set1 set2 m).fix1 = none ∧
    (CheckIds.processId idv org set1 set2 m).fix2 = none ∧
    (CheckIds.processId idv org set1 set2 m).report =
      (if set1.contains idv && set2.contains idv then none
       else some ⟨idv, org, "", "no"⟩) := by
  have hfg : ∀ s : List String,
      CheckIds.find_gca_for_one_table idv s m = ("", false) := by
    intro s
    unfold CheckIds.find_gca_for_one_table
    rw [hparse]
  have htf : ∀ s : List String, CheckIds.tableFix idv s m = ("", false) := by
    intro s
    unfold CheckIds.tableFix
    rw [hfg s]
    split <;> rfl
  have hpid : CheckIds.processId idv org set1 set2 m =
      ⟨if !set1.contains idv || !set2.contains idv then
          some ⟨idv, org, "", "no"⟩ else none,
        none, none⟩ := by
    unfold CheckIds.processId
    rw [show CheckIds.isGCA (CheckIds.parse_acc idv) = false from by rw [hparse]; rfl]
    simp only [Bool.false_eq_true, if_false, htf]
    simp
  refine ⟨hfg tset, ?_, ?_, ?_⟩
  · rw [hpid]
  · rw [hpid]
  · rw [hpid]
    cases hc1 : set1.contains idv <;> cases hc2 : set2.contains idv <;> simp

/-- C9 witness: `"FOO"` absent from the first table is reported with empty
candidate and `gca_present = "no"`. -/
theorem c9_unparsable_witness :
    (CheckIds.processId "FOO" "org" ["BAR"] ["FOO"] 10).report =
      some ⟨"FOO", "org", "", "no"⟩ ∧
    CheckIds.find_gca_for_one_table "FOO" ["GCA_1.1"] 10 = ("", false) := by
  have h := c9_unparsable "FOO" "org" ["GCA_1.1"] ["BAR"] ["FOO"] 10 (by decide)
  refine ⟨?_, h.1⟩
  rw [h.2.2.2]
  decide

/-- A found alternate is never the empty string: the search only returns
`True` together with a `GCA_`-prefixed candidate. -/
theorem find_gca_fixed_ne_empty (g : String) (s : List String) (m : Nat) :
    (CheckIds.find_gca_for_one_table g s m).2 = true →
    (CheckIds.find_gca_for_one_table g s m).1 ≠ "" := by
  unfold CheckIds.find_gca_for_one_table
  cases hp : CheckIds.parse_acc g with
  | none => simp
  | some t =>
    obtain ⟨pfx, digits, ver⟩ := t
    cases hb : (pfx != "GCF") with
    | true => simp [hb]
    | false =>
      simp only [hb, Bool.false_eq_true, if_false]
      cases hf : (List.range (m + 1)).find?
          (fun i => s.contains ("GCA_" ++ digits ++ "." ++ toString (ver + i))) with
      | some i =>
        simp only [hf]
        intro _ h
        have := congrArg String.data h
        simp [String.data_append] at this
      | none =>
        simp only [hf]
        intro h
        simp at h

/-- The per-table step never records a fix with an empty candidate. -/
theorem tableFix_fixed_ne_empty (g : String) (s : List String) (m : Nat) :
    (CheckIds.tableFix g s m).2 = true → (CheckIds.tableFix g s m).1 ≠ "" := by
  unfold CheckIds.tableFix
  split
  · simp
  · exact find_gca_fixed_ne_empty g s m

/-- C10: in every report row emitted for a `GCF`-parseable candidate,
`gca_present` is `"yes"` exactly when the candidate was remapped (a `GCA`
variant was found) in at least one of the two tables and `"no"` when in
neither, and `gca_candidate` is the table-1 candidate when nonempty,
otherwise the table-2 candidate (`cand1 or cand2`). -/
theorem c10_report_fields (idv org digits : String) (ver : Nat)
    (set1 set2 : List String) (m : Nat)
    (hparse : CheckIds.parse_acc idv = some ("GCF", digits, ver)) :
    ∀ r, (CheckIds.processId idv org set1 set2 m).report = some r →
      r.missing_id = idv ∧ r.organism = org ∧
      r.gca_present = (if (CheckIds.tableFix idv set1 m).2 ||
          (CheckIds.tableFix idv set2 m).2 then "yes" else "no") ∧
      (r.gca_present = "yes" ↔ ((CheckIds.tableFix idv set1 m).2 = true ∨
          (CheckIds.tableFix idv set2 m).2 = true)) ∧
      r.gca_candidate = (if (CheckIds.tableFix idv set1 m).1 != "" then
          (CheckIds.tableFix idv set1 m).1 else (CheckIds.tableFix idv set2 m).1) := by
  intro r hr
  have hne : CheckIds.isGCA (CheckIds.parse_acc idv) = false := by
    rw [hparse]
    rfl
  set c1 := CheckIds.tableFix idv set1 m with hc1
  set c2 := CheckIds.tableFix idv set2 m with hc2
  have hpid : CheckIds.processId idv org set1 set2 m =
      ⟨if (!set1.contains idv && !c1.2) || (!set2.contains idv && !c2.2) then
          some ⟨idv, org, if c1.1 != "" then c1.1 else c2.1,
            if c1.2 || c2.2 then "yes" else "no"⟩
        else none,
        if c1.2 && c1.1 != "" then some (c1.1, idv) else none,
        if c2.2 && c2.1 != "" then some (c2.1, idv) else none⟩ := by
    unfold CheckIds.processId
    rw [hne]
    rfl
  rw [hpid] at hr
  cases hu : ((!set1.contains idv && !c1.2) || (!set2.contains idv && !c2.2)) with
  | false =>
    rw [hu] at hr
    simp at hr
  | true =>
    rw [hu] at hr
    simp only [if_pos] at hr
    obtain rfl : (⟨idv, org, if c1.1 != "" then c1.1 else c2.1,
        if c1.2 || c2.2 then "yes" else "no"⟩ : CheckIds.ReportRow) = r := by
      simpa using hr
    refine ⟨rfl, rfl, rfl, ?_, rfl⟩
    cases hb1 : c1.2 <;> cases hb2 : c2.2 <;> simp [hb1, hb2]

/-- C10 witness: for `"GCF_123.1"` with table 1 holding `"GCA_123.3"` and
table 2 empty, the emitted row has `gca_present = "yes"` and
`gca_candidate = "GCA_123.3"`. -/
theorem c10_report_fields_witness :
    CheckIds.ReportRow.gca_present ⟨"GCF_123.1", "o", "GCA_123.3", "yes"⟩ = "yes" ∧
    CheckIds.ReportRow.gca_candidate ⟨"GCF_123.1", "o", "GCA_123.3", "yes"⟩ =
      "GCA_123.3" := by
  have h := c10_report_fields "GCF_123.1" "o" "123" 1 ["GCA_123.3"] [] 5 (by decide)
    ⟨"GCF_123.1", "o", "GCA_123.3", "yes"⟩ (by decide)
  constructor
  · rw [h.2.2.1]
    decide
  · rw [h.2.2.2.2]
    decide

end Hive

